import Mathlib

/-!
# Verification of the yt-api HTTP façade (src/main.py)

Shallow embedding of the FastAPI application in `src/main.py`:
an in-memory session cache of fetched video handles (bounded FIFO),
stream-option enumeration, and the download/merge step.  Python strings
are modelled as `String`/`List Char`, the insertion-ordered Python `dict`
as an association list, the `downloads/` directory as an association list
from paths to file contents, and the external FFmpeg process as an event
plus a success oracle.  Float arithmetic of the reported size fields is
modelled exactly over `ℚ`.
-/

namespace YtApi

/-! ## Data model

A pytubefix stream object, abstracted to the attributes `src/main.py`
reads: the filter flags, the numeric sort keys (`abr` as in "128kbps",
`resolution` as in "1080p"; `none` when the library reports `None`),
and the display/naming attributes. -/

structure MediaStream where
  only_audio : Bool
  only_video : Bool
  progressive : Bool
  adaptive : Bool
  file_extension : String
  abr : Option Nat
  resolution : Option Nat
  fps : Nat
  mime_type : String
  filesize : Nat
  default_filename : String
deriving DecidableEq

/-- A `pytubefix.YouTube` handle as used by `src/main.py`: its title and
its stream list (`yt.streams`). -/
structure YouTube where
  title : String
  streams : List MediaStream
deriving DecidableEq

/-- `StreamOption` response model (src/main.py lines 24-29).  `size_mb`
is a rational standing for the Python float. -/
structure StreamOption where
  id : String
  quality : String
  format : String
  size_mb : ℚ
  type : String
deriving DecidableEq

/-- `FormatOptionsResponse` model (src/main.py lines 36-38). -/
structure FormatOptionsResponse where
  format_type : String
  options : List StreamOption
deriving DecidableEq

/-- A raised Python exception: either a `fastapi.HTTPException` (which
subclasses `Exception`) or any other exception carrying its `str()`. -/
inductive Exc where
  | http (status : Nat) (detail : String)
  | pyerr (msg : String)
deriving DecidableEq

/-- Python `str(e)`.  For a starlette `HTTPException` this is
`f"{status_code}: {detail}"`. -/
def excMessage : Exc → String
  | .http status detail => toString status ++ ": " ++ detail
  | .pyerr msg => msg

/-- The observable HTTP outcome of an endpoint call: a successful body,
or an error response with its status code and detail string. -/
inductive Resp (α : Type) where
  | ok (body : α)
  | httpError (status : Nat) (detail : String)
deriving DecidableEq

/-! ## Session cache (src/main.py lines 40-88)

`video_cache: Dict[str, YouTube]` is a Python 3.7+ `dict`, i.e. an
insertion-ordered map; `next(iter(video_cache))` is its first key in
insertion order.  We model it as an association list in insertion order. -/

abbrev Cache := List (String × YouTube)

/-- Python `d[k] = v` on an insertion-ordered dict: update in place if
the key exists, else append at the end. -/
def dictInsert (d : Cache) (k : String) (v : YouTube) : Cache :=
  if d.any (fun p => p.1 == k) then
    d.map (fun p => if p.1 == k then (k, v) else p)
  else d ++ [(k, v)]

/-- `get_cached_youtube` (src/main.py lines 65-67): `video_cache.get(cache_id)`. -/
def get_cached_youtube (cache : Cache) (cache_id : String) : Option YouTube :=
  (cache.find? (fun p => p.1 == cache_id)).map (fun p => p.2)

/-- `cache_youtube` (src/main.py lines 69-88), after the network fetch:
the freshly generated `uuid4` string and the fetched handle enter as the
oracle inputs `cache_id` and `yt`.  Stores the handle, then if the size
exceeds 10 deletes the first key in insertion order. -/
def cache_youtube (cache : Cache) (cache_id : String) (yt : YouTube) : Cache :=
  let c := dictInsert cache cache_id yt
  if 10 < c.length then c.drop 1 else c

/-- A sequence of `/info` requests starting from the module-level empty
cache: each run of `cache_youtube` with its generated id and handle. -/
def runPuts (ops : List (String × YouTube)) : Cache :=
  ops.foldl (fun c p => cache_youtube c p.1 p.2) []

/-! ## Stream queries

Modelled from the pytubefix library as the spec describes it
(spec §4.2: enumerate, sort by the numeric quality metric, ties broken
by the library's native — i.e. stable — ordering): `order_by(attr)`
keeps the streams whose attribute is present and stable-sorts them
ascending by its numeric value; `.desc()` reverses; `.first()` takes
the head.  Python's `sorted` is a stable sort, modelled by stable
insertion. -/

def insertByKey {α : Type} (key : α → Nat) (x : α) : List α → List α
  | [] => [x]
  | y :: ys => if key y ≤ key x then y :: insertByKey key x ys else x :: y :: ys

/-- Python's stable `sorted(l, key=key)` (ascending). -/
def pySorted {α : Type} (key : α → Nat) (l : List α) : List α :=
  l.foldl (fun acc x => insertByKey key x acc) []

/-- pytubefix `StreamQuery.order_by(attr)`: drop streams whose attribute
is `None`, stable-sort ascending by its numeric value. -/
def order_by (attr : MediaStream → Option Nat) (q : List MediaStream) : List MediaStream :=
  pySorted (fun s => (attr s).getD 0) (q.filter (fun s => (attr s).isSome))

/-- pytubefix `StreamQuery.desc()`. -/
def desc (q : List MediaStream) : List MediaStream := q.reverse

/-- The audio pipeline of `get_format_options` (src/main.py line 168):
`yt.streams.filter(only_audio=True).order_by('abr').desc()`. -/
def formats_audio_streams (yt : YouTube) : List MediaStream :=
  desc (order_by (fun s => s.abr) (yt.streams.filter (fun s => s.only_audio)))

/-- The progressive pipeline of `get_format_options` (src/main.py line 181):
`yt.streams.filter(progressive=True, file_extension='mp4').order_by('resolution').desc()`. -/
def formats_progressive_streams (yt : YouTube) : List MediaStream :=
  desc (order_by (fun s => s.resolution)
    (yt.streams.filter (fun s => s.progressive && s.file_extension == "mp4")))

/-- The adaptive pipeline of `get_format_options` (src/main.py line 193):
`yt.streams.filter(adaptive=True, only_video=True, file_extension='mp4').order_by('resolution').desc()`. -/
def formats_adaptive_streams (yt : YouTube) : List MediaStream :=
  desc (order_by (fun s => s.resolution)
    (yt.streams.filter (fun s => s.adaptive && s.only_video && s.file_extension == "mp4")))

/-- The audio pipeline of `download_selected` (src/main.py line 236):
`yt.streams.filter(only_audio=True).order_by('abr').desc()`. -/
def download_audio_streams (yt : YouTube) : List MediaStream :=
  desc (order_by (fun s => s.abr) (yt.streams.filter (fun s => s.only_audio)))

/-- The progressive pipeline of `download_selected` (src/main.py line 250):
`yt.streams.filter(progressive=True, file_extension='mp4').order_by('resolution').desc()`. -/
def download_progressive_streams (yt : YouTube) : List MediaStream :=
  desc (order_by (fun s => s.resolution)
    (yt.streams.filter (fun s => s.progressive && s.file_extension == "mp4")))

/-- The adaptive video pipeline of `download_selected` (src/main.py line 259):
`yt.streams.filter(adaptive=True, only_video=True, file_extension='mp4').order_by('resolution').desc()`. -/
def download_adaptive_streams (yt : YouTube) : List MediaStream :=
  desc (order_by (fun s => s.resolution)
    (yt.streams.filter (fun s => s.adaptive && s.only_video && s.file_extension == "mp4")))

/-- The best-audio query of the adaptive branch (src/main.py line 263):
`yt.streams.filter(only_audio=True).order_by('abr').desc().first()`. -/
def download_best_audio (yt : YouTube) : Option MediaStream :=
  (desc (order_by (fun s => s.abr) (yt.streams.filter (fun s => s.only_audio)))).head?

/-! ## Option lists (src/main.py lines 164-204) -/

/-- `round(x, 2)` on the rational model of the float. -/
def round2 (q : ℚ) : ℚ := (round (q * 100) : ℤ) / 100

/-- `stream.filesize / (1024*1024) if stream.filesize else 0`. -/
def size_mb_of (s : MediaStream) : ℚ :=
  if s.filesize ≠ 0 then (s.filesize : ℚ) / (1024 * 1024) else 0

/-- The display form of `stream.abr` ("128kbps", or the Python `None`
when absent); `stream.abr or "Unknown"` maps absent to `"Unknown"`. -/
def abrDisplay (s : MediaStream) : String :=
  match s.abr with
  | some n => toString n ++ "kbps"
  | none => "Unknown"

/-- The display form of `stream.resolution` ("1080p", or the string
`"None"` an f-string renders for the Python `None`). -/
def resDisplay (s : MediaStream) : String :=
  match s.resolution with
  | some n => toString n ++ "p"
  | none => "None"

/-- One element of the `options` loop for audio (src/main.py lines 169-177). -/
def audio_option (i : Nat) (s : MediaStream) : StreamOption :=
  { id := "audio_" ++ toString i
    quality := abrDisplay s
    format := s.mime_type
    size_mb := round2 (size_mb_of s)
    type := "audio" }

/-- One element of the `options` loop for progressive video
(src/main.py lines 182-190). -/
def progressive_option (i : Nat) (s : MediaStream) : StreamOption :=
  { id := "progressive_" ++ toString i
    quality := resDisplay s ++ " (" ++ toString s.fps ++ "fps)"
    format := "MP4 Progressive"
    size_mb := round2 (size_mb_of s)
    type := "progressive" }

/-- One element of the `options` loop for adaptive video
(src/main.py lines 194-204), with the estimated audio share
`size_mb * 1.15`. -/
def adaptive_option (i : Nat) (s : MediaStream) : StreamOption :=
  { id := "adaptive_" ++ toString i
    quality := resDisplay s ++ " (" ++ toString s.fps ++ "fps) HQ"
    format := "MP4 High Quality"
    size_mb := round2 (size_mb_of s * (115 / 100))
    type := "adaptive" }

/-- The `"mp3"` options list of `get_format_options`. -/
def audio_options (yt : YouTube) : List StreamOption :=
  (formats_audio_streams yt).enum.map (fun p => audio_option p.1 p.2)

/-- The `"mp4"` options list of `get_format_options`: the progressive
loop followed by the adaptive loop. -/
def mp4_options (yt : YouTube) : List StreamOption :=
  (formats_progressive_streams yt).enum.map (fun p => progressive_option p.1 p.2) ++
    (formats_adaptive_streams yt).enum.map (fun p => adaptive_option p.1 p.2)

/-! ## The `/formats` endpoint (src/main.py lines 156-215) -/

/-- Python `str.lower()`. -/
def strLower (s : String) : String := String.mk (s.data.map Char.toLower)

/-- The `try:` body of `get_format_options`: a cache miss raises
`HTTPException(404, ...)`, an unknown format type raises
`HTTPException(400, ...)`. -/
def get_format_options_body (cache : Cache) (cache_id format_type : String) :
    Except Exc FormatOptionsResponse :=
  match get_cached_youtube cache cache_id with
  | none => .error (.http 404 "Video not found in cache. Please fetch info first.")
  | some yt =>
    if strLower format_type == "mp3" then
      .ok { format_type := format_type, options := audio_options yt }
    else if strLower format_type == "mp4" then
      .ok { format_type := format_type, options := mp4_options yt }
    else .error (.http 400 "Invalid format type. Use 'mp3' or 'mp4'")

/-- The observable behaviour of `GET /formats`: the `except Exception`
clause (src/main.py line 214) catches every exception raised in the
body — `HTTPException` subclasses `Exception` — and re-raises it as
`HTTPException(500, f"Error getting format options: {str(e)}")`. -/
def get_format_options (cache : Cache) (cache_id format_type : String) :
    Resp FormatOptionsResponse :=
  match get_format_options_body cache cache_id format_type with
  | .ok r => .ok r
  | .error e => .httpError 500 ("Error getting format options: " ++ excMessage e)

/-! ## URL processing (`process_youtube_url`, src/main.py lines 43-63)

Python strings are worked on as `List Char`.  `re.search` over the two
patterns is implemented literally: scan start positions left to right;
pattern 1 tries its five alternatives in order at each position, each
alternative being a literal host/route piece followed by exactly eleven
`[a-zA-Z0-9_-]` characters; pattern 2 is just the eleven-character
class. -/

/-- The character class `[a-zA-Z0-9_-]`. -/
def isVidChar (c : Char) : Bool := c.isAlphanum || c == '_' || c == '-'

/-- The split marker of `url.split('?feature=shared')[0]`. -/
def featureMarker : List Char := "?feature=shared".data

/-- Boolean list-prefix test (Python `startswith`, and the literal part
of a regex match at a position). -/
def lpre : List Char → List Char → Bool
  | [], _ => true
  | _ :: _, [] => false
  | a :: as, b :: bs => a == b && lpre as bs

/-- `url.split('?feature=shared')[0]`: the part before the first
occurrence of the marker (the whole string when it never occurs). -/
def stripShared : List Char → List Char
  | [] => []
  | c :: rest => if lpre featureMarker (c :: rest) then [] else c :: stripShared rest

/-- Matching `([a-zA-Z0-9_-]{11})` at the current position: exactly the
next eleven characters, all in the class. -/
def take11class (l : List Char) : Option (List Char) :=
  let v := l.take 11
  if v.length == 11 && v.all isVidChar then some v else none

/-- Matching one alternative of pattern 1 at the current position: its
literal piece followed by the eleven-character group. -/
def matchAfter (p l : List Char) : Option (List Char) :=
  if lpre p l then take11class (l.drop p.length) else none

def altWatch : List Char := "youtube.com/watch?v=".data

def altBe : List Char := "youtu.be/".data

def altEmbed : List Char := "youtube.com/embed/".data

def altV : List Char := "youtube.com/v/".data

def altShorts : List Char := "youtube.com/shorts/".data

/-- The five alternatives of pattern 1, in regex order. -/
def alts : List (List Char) := [altWatch, altBe, altEmbed, altV, altShorts]

/-- Pattern 1 at one position: the alternation, tried left to right. -/
def tryAt (l : List Char) : Option (List Char) :=
  match matchAfter altWatch l with
  | some v => some v
  | none =>
    match matchAfter altBe l with
    | some v => some v
    | none =>
      match matchAfter altEmbed l with
      | some v => some v
      | none =>
        match matchAfter altV l with
        | some v => some v
        | none => matchAfter altShorts l

/-- `re.search` of pattern 1: leftmost start position wins. -/
def searchPat1 : List Char → Option (List Char)
  | [] => none
  | c :: rest =>
    match tryAt (c :: rest) with
    | some v => some v
    | none => searchPat1 rest

/-- `re.search` of pattern 2 `([a-zA-Z0-9_-]{11})`: the leftmost run of
eleven class characters. -/
def searchPat2 : List Char → Option (List Char)
  | [] => none
  | c :: rest =>
    match take11class (c :: rest) with
    | some v => some v
    | none => searchPat2 rest

def httpsPre : List Char := "https://youtube.com".data

def httpPre : List Char := "http://youtube.com".data

def canonPre : List Char := "https://www.youtube.com/watch?v=".data

/-- The part of the canonical URL before its pattern-1 hit:
`canonPre = preW ++ altWatch`. -/
def preW : List Char := "https://www.".data

/-- `f"https://www.youtube.com/watch?v={video_id}"`. -/
def canonical (v : List Char) : List Char := canonPre ++ v

/-- `process_youtube_url` on the character list (src/main.py lines 43-63). -/
def process (url : List Char) : List Char :=
  let u := stripShared url
  if lpre httpsPre u || lpre httpPre u then u
  else
    match searchPat1 u with
    | some v => canonical v
    | none =>
      match searchPat2 u with
      | some v => canonical v
      | none => u

/-- `process_youtube_url` (src/main.py lines 43-63). -/
def process_youtube_url (s : String) : String := String.mk (process s.data)

/-! ## Filesystem and external-process model (for `/download`)

The `downloads/` directory is an association list from paths to file
contents.  A downloaded file holds the stream's native container bytes
(`Content.streamData`); the FFmpeg output records which input paths it
was produced from.  Every externally visible action is also recorded as
an `Event`, so "the transcoder is never invoked" and "the temp inputs
were downloaded" are statements about the event trace. -/

inductive Content where
  | streamData (s : MediaStream)
  | mergedOutput (video_path audio_path : String)
deriving DecidableEq

abbrev FS := List (String × Content)

inductive Event where
  | download (s : MediaStream) (path : String)
  | ffmpeg (cmd : List String)
  | remove (path : String)
  | rename (src dst : String)
deriving DecidableEq

def fsGet (fs : FS) (p : String) : Option Content :=
  (fs.find? (fun e => e.1 == p)).map (fun e => e.2)

/-- Writing a file at `p` (a download or the FFmpeg `-y` output)
replaces whatever was there. -/
def fsSet (fs : FS) (p : String) (c : Content) : FS :=
  (p, c) :: fs.filter (fun e => !(e.1 == p))

/-- `os.remove`. -/
def fsRemove (fs : FS) (p : String) : FS :=
  fs.filter (fun e => !(e.1 == p))

def fsHas (fs : FS) (p : String) : Bool := (fsGet fs p).isSome

/-- `os.rename(src, dst)`: moves the content, replacing any file at
`dst`. -/
def fsRename (fs : FS) (src dst : String) : FS :=
  match fsGet fs src with
  | some c => fsSet (fsRemove fs src) dst c
  | none => fs

def DOWNLOAD_FOLDER : String := "downloads"

/-- `stream.download(output_path=DOWNLOAD_FOLDER, filename_prefix=pre)`:
saves the stream's bytes under its library default filename with the
given prefix and returns the saved path. -/
def streamDownload (fs : FS) (s : MediaStream) (pre : String) : FS × String :=
  let path := DOWNLOAD_FOLDER ++ "/" ++ pre ++ s.default_filename
  (fsSet fs path (.streamData s), path)

/-- The FFmpeg command list built by `merge_video_audio`
(src/main.py lines 93-101). -/
def ffmpegCmd (video_path audio_path output_path : String) : List String :=
  ["ffmpeg", "-i", video_path, "-i", audio_path, "-c:v", "copy", "-c:a", "aac",
    "-y", output_path]

/-! ## Parsing `option_id` (src/main.py lines 226-227) -/

/-- Python `str.split(sep)` for a one-character separator. -/
def splitOnChar (sep : Char) : List Char → List (List Char)
  | [] => [[]]
  | c :: rest =>
    if c == sep then [] :: splitOnChar sep rest
    else (c :: (splitOnChar sep rest).headI) :: (splitOnChar sep rest).tail

/-- Decimal value of a digit string (the accumulator of Python `int`). -/
def charsToNat (l : List Char) : Nat :=
  l.foldl (fun acc c => acc * 10 + (c.toNat - 48)) 0

/-- Python `int(s)` on the pieces produced by `split('_')`: succeeds on
a nonempty all-digit string, raises `ValueError` otherwise (signs and
surrounding whitespace, which no produced id contains, are not
modelled). -/
def pyInt (s : String) : Option Nat :=
  if s.data ≠ [] ∧ s.data.all Char.isDigit then some (charsToNat s.data) else none

/-- `option_type, index = option_id.split('_'); index = int(index)`:
fails (a `ValueError` propagating to `except Exception`) unless the id
splits into exactly two pieces with a numeric second piece. -/
def parseOptionId (option_id : String) : Option (String × Nat) :=
  match (splitOnChar '_' option_id.data).map String.mk with
  | [t, n] => (pyInt n).map (fun i => (t, i))
  | _ => none

/-! ## Safe title and `os.path.splitext` -/

/-- src/main.py lines 230-231: keep alphanumerics and `' '`, `'.'`,
`'_'`, `'-'`; strip; replace spaces by underscores; truncate to 50. -/
def safeTitle (title : String) : String :=
  let kept := title.data.filter
    (fun c => c.isAlphanum || c == ' ' || c == '.' || c == '_' || c == '-')
  let stripped := ((kept.dropWhile (fun c => c == ' ')).reverse.dropWhile
    (fun c => c == ' ')).reverse
  String.mk ((stripped.map (fun c => if c == ' ' then '_' else c)).take 50)

/-- `os.path.splitext(p)[0]`: everything before the last dot of the
basename, unless every character between the basename start and that
dot is itself a dot. -/
def splitextBase (p : String) : String :=
  let r := p.data.reverse
  let after := r.takeWhile (fun c => !(c == '.') && !(c == '/'))
  match r.drop after.length with
  | '.' :: tl =>
    if (tl.takeWhile (fun c => !(c == '/'))).all (fun c => c == '.') then p
    else String.mk tl.reverse
  | _ => p

/-! ## The `/download` endpoint (src/main.py lines 217-295) -/

/-- `FileResponse(path, filename=...)`. -/
structure FileResp where
  path : String
  filename : String
deriving DecidableEq

/-- The `try:` body of `download_selected`, threading the filesystem
and recording the event trace.  `ffmpegOk` is the success oracle of the
external FFmpeg process. -/
def download_selected_body (cache : Cache) (cache_id option_id : String)
    (ffmpegOk : Bool) (fs : FS) : Except Exc FileResp × FS × List Event :=
  match get_cached_youtube cache cache_id with
  | none => (.error (.http 404 "Video not found in cache"), fs, [])
  | some yt =>
    match parseOptionId option_id with
    | none => (.error (.pyerr "ValueError: invalid option_id"), fs, [])
    | some (option_type, index) =>
      let safe_title := safeTitle yt.title
      if option_type == "audio" then
        match (download_audio_streams yt).get? index with
        | none => (.error (.pyerr "IndexError: list index out of range"), fs, [])
        | some sel =>
          let dl := streamDownload fs sel ""
          let file_path := dl.2
          let new_file_path := splitextBase file_path ++ ".mp3"
          (.ok { path := new_file_path, filename := safe_title ++ ".mp3" },
            fsRename dl.1 file_path new_file_path,
            [.download sel file_path, .rename file_path new_file_path])
      else if option_type == "progressive" then
        match (download_progressive_streams yt).get? index with
        | none => (.error (.pyerr "IndexError: list index out of range"), fs, [])
        | some sel =>
          let dl := streamDownload fs sel ""
          (.ok { path := dl.2, filename := safe_title ++ "_" ++ resDisplay sel ++ ".mp4" },
            dl.1, [.download sel dl.2])
      else if option_type == "adaptive" then
        match (download_adaptive_streams yt).get? index with
        | none => (.error (.pyerr "IndexError: list index out of range"), fs, [])
        | some selV =>
          match download_best_audio yt with
          | none => (.error (.http 500 "No audio stream found for merging"), fs, [])
          | some selA =>
            let dlV := streamDownload fs selV "temp_video_"
            let video_path := dlV.2
            let dlA := streamDownload dlV.1 selA "temp_audio_"
            let audio_path := dlA.2
            let output_filename := safe_title ++ "_" ++ resDisplay selV ++ ".mp4"
            let output_path := DOWNLOAD_FOLDER ++ "/" ++ output_filename
            let cmd := ffmpegCmd video_path audio_path output_path
            if ffmpegOk then
              let fs3 := fsSet dlA.1 output_path (.mergedOutput video_path audio_path)
              (.ok { path := output_path, filename := output_filename },
                fsRemove (fsRemove fs3 video_path) audio_path,
                [.download selV video_path, .download selA audio_path, .ffmpeg cmd,
                  .remove video_path, .remove audio_path])
            else
              (.error (.http 500 "FFmpeg merge failed"), dlA.1,
                [.download selV video_path, .download selA audio_path, .ffmpeg cmd])
      else (.error (.http 400 "Invalid option ID"), fs, [])

/-- The observable behaviour of `GET /download`: as in `/formats`, the
`except Exception` clause (src/main.py line 294) also catches the
`HTTPException`s raised in the body and re-raises
`HTTPException(500, f"Download failed: {str(e)}")`. -/
def download_selected (cache : Cache) (cache_id option_id : String)
    (ffmpegOk : Bool) (fs : FS) : Resp FileResp × FS × List Event :=
  match download_selected_body cache cache_id option_id ffmpegOk fs with
  | (.ok r, fs1, evs) => (.ok r, fs1, evs)
  | (.error e, fs1, evs) =>
    (.httpError 500 ("Download failed: " ++ excMessage e), fs1, evs)

/-! ## Path abbreviations (the paths `download_selected` constructs) -/

/-- The save path of the audio/progressive branches (no filename prefix). -/
def plainDlPath (s : MediaStream) : String :=
  DOWNLOAD_FOLDER ++ "/" ++ "" ++ s.default_filename

/-- The adaptive branch's video temp path (`filename_prefix="temp_video_"`). -/
def tempVideoPath (s : MediaStream) : String :=
  DOWNLOAD_FOLDER ++ "/" ++ "temp_video_" ++ s.default_filename

/-- The adaptive branch's audio temp path (`filename_prefix="temp_audio_"`). -/
def tempAudioPath (s : MediaStream) : String :=
  DOWNLOAD_FOLDER ++ "/" ++ "temp_audio_" ++ s.default_filename

/-- The adaptive branch's `output_filename`. -/
def adaptiveOutputName (yt : YouTube) (s : MediaStream) : String :=
  safeTitle yt.title ++ "_" ++ resDisplay s ++ ".mp4"

/-- The adaptive branch's `output_path`. -/
def adaptiveOutputPath (yt : YouTube) (s : MediaStream) : String :=
  DOWNLOAD_FOLDER ++ "/" ++ adaptiveOutputName yt s

/-! ## Concrete fixtures (used by witnesses and counterexamples) -/

def baseStream : MediaStream :=
  { only_audio := false, only_video := false, progressive := false,
    adaptive := false, file_extension := "mp4", abr := none,
    resolution := none, fps := 30, mime_type := "video/mp4",
    filesize := 1048576, default_filename := "f.mp4" }

def demoAudio128 : MediaStream :=
  { baseStream with
    only_audio := true
    file_extension := "webm"
    abr := some 128
    mime_type := "audio/webm"
    default_filename := "a128.webm" }

def demoAudio50 : MediaStream :=
  { baseStream with
    only_audio := true
    file_extension := "webm"
    abr := some 50
    mime_type := "audio/webm"
    default_filename := "a50.webm" }

def demoProg360 : MediaStream :=
  { baseStream with
    progressive := true
    resolution := some 360
    default_filename := "p360.mp4" }

def demoV1080 : MediaStream :=
  { baseStream with
    adaptive := true
    only_video := true
    resolution := some 1080
    default_filename := "v1080.mp4" }

def demoV720 : MediaStream :=
  { baseStream with
    adaptive := true
    only_video := true
    resolution := some 720
    default_filename := "v720.mp4" }

def demoStreams : List MediaStream :=
  [demoAudio128, demoAudio50, demoProg360, demoV1080, demoV720]

def demoYT : YouTube := { title := "Demo", streams := demoStreams }

def demoCache1 : Cache := [("k", demoYT)]

/-- A second handle with the same stream list but a different title and
a different cache id (for the determinism witness). -/
def demoYTOther : YouTube := { title := "Other Title", streams := demoStreams }

def demoCache2 : Cache := [("q", demoYTOther)]

def demoEmptyYT : YouTube := { title := "Empty", streams := [] }

def demoRest9 : Cache :=
  [("k1", demoEmptyYT), ("k2", demoEmptyYT), ("k3", demoEmptyYT),
    ("k4", demoEmptyYT), ("k5", demoEmptyYT), ("k6", demoEmptyYT),
    ("k7", demoEmptyYT), ("k8", demoEmptyYT), ("k9", demoEmptyYT)]

end YtApi

namespace YtApi

/-! ## Helper lemmas: the cache -/

theorem dictInsert_length_le (d : Cache) (k : String) (v : YouTube) :
    (dictInsert d k v).length ≤ d.length + 1 := by
  unfold dictInsert
  split <;> simp

theorem cache_youtube_length_le (cache : Cache) (k : String) (v : YouTube)
    (h : cache.length ≤ 10) : (cache_youtube cache k v).length ≤ 10 := by
  have hlen := dictInsert_length_le cache k v
  unfold cache_youtube
  by_cases hgt : 10 < (dictInsert cache k v).length
  · simp only [hgt, if_true, List.length_drop]
    omega
  · simp only [hgt, if_false]
    omega

theorem runPuts_length_le (ops : List (String × YouTube)) :
    (runPuts ops).length ≤ 10 := by
  suffices h : ∀ c : Cache, c.length ≤ 10 →
      (ops.foldl (fun c p => cache_youtube c p.1 p.2) c).length ≤ 10 by
    exact h [] (by simp)
  induction ops with
  | nil => intro c hc; simpa using hc
  | cons p rest ih =>
    intro c hc
    exact ih _ (cache_youtube_length_le c p.1 p.2 hc)

theorem dictInsert_fresh (d : Cache) (k : String) (v : YouTube)
    (hfresh : ∀ p ∈ d, p.1 ≠ k) : dictInsert d k v = d ++ [(k, v)] := by
  unfold dictInsert
  have hany : d.any (fun p => p.1 == k) = false := by
    rw [List.any_eq_false]
    intro p hp
    simpa using hfresh p hp
  simp [hany]

theorem get_cached_eq_none (cache : Cache) (cid : String)
    (h : ∀ p ∈ cache, p.1 ≠ cid) : get_cached_youtube cache cid = none := by
  unfold get_cached_youtube
  have : cache.find? (fun p => p.1 == cid) = none := by
    rw [List.find?_eq_none]
    intro p hp
    simpa using h p hp
  simp [this]

/-- C1: the session cache holds at most 10 entries after any sequence of
`cache_youtube` calls (reads never mutate the cache, so recency of
access is irrelevant), and an insertion into a full cache of 10 removes
exactly the first-inserted entry: the result is the tail of the old
cache plus the new entry, has exactly 10 entries, and the old first key
is no longer retrievable via `get_cached_youtube`. -/
theorem c1_cache_bounded_fifo :
    (∀ ops : List (String × YouTube), (runPuts ops).length ≤ 10) ∧
    (∀ (k0 : String) (v0 : YouTube) (rest : Cache) (k : String) (v : YouTube),
      ((k0, v0) :: rest : Cache).length = 10 →
      ((((k0, v0) :: rest : Cache)).map Prod.fst).Nodup →
      (∀ p ∈ ((k0, v0) :: rest : Cache), p.1 ≠ k) →
      cache_youtube ((k0, v0) :: rest) k v = rest ++ [(k, v)] ∧
      (cache_youtube ((k0, v0) :: rest) k v).length = 10 ∧
      get_cached_youtube (cache_youtube ((k0, v0) :: rest) k v) k0 = none) := by
  constructor
  · exact runPuts_length_le
  · intro k0 v0 rest k v hlen hnd hfresh
    have hins := dictInsert_fresh ((k0, v0) :: rest) k v hfresh
    have heq : cache_youtube ((k0, v0) :: rest) k v = rest ++ [(k, v)] := by
      unfold cache_youtube
      rw [hins]
      have hgt : 10 < ((k0, v0) :: (rest ++ [(k, v)])).length := by
        simp only [List.length_cons, List.length_append, List.length_nil] at hlen ⊢
        omega
      simp only [hgt, if_true, List.cons_append, List.drop_one, List.tail_cons]
    refine ⟨heq, ?_, ?_⟩
    · rw [heq]
      simp only [List.length_append, List.length_cons, List.length_nil] at hlen ⊢
      omega
    · rw [heq]
      apply get_cached_eq_none
      intro p hp
      rcases List.mem_append.mp hp with hp | hp
      · have hk0 : k0 ∉ (rest.map Prod.fst) := by
          have h2 : (k0 :: rest.map Prod.fst).Nodup := by simpa using hnd
          exact (List.nodup_cons.mp h2).1
        intro hcontra
        exact hk0 (hcontra ▸ List.mem_map_of_mem Prod.fst hp)
      · have : p = (k, v) := by simpa using hp
        subst this
        intro hcontra
        exact hfresh (k0, v0) (List.mem_cons_self _ _) (by simpa using hcontra.symm)

/-- Witness for `c1_cache_bounded_fifo` at a concrete full cache of ten
entries: inserting an eleventh evicts exactly the first-inserted key. -/
theorem c1_cache_bounded_fifo_witness :
    cache_youtube (("k0", demoEmptyYT) :: demoRest9) "k10" demoYT =
      demoRest9 ++ [("k10", demoYT)] ∧
    (cache_youtube (("k0", demoEmptyYT) :: demoRest9) "k10" demoYT).length = 10 ∧
    get_cached_youtube (cache_youtube (("k0", demoEmptyYT) :: demoRest9) "k10" demoYT)
      "k0" = none :=
  c1_cache_bounded_fifo.2 "k0" demoEmptyYT demoRest9 "k10" demoYT (by decide) (by decide)
    (by decide)

/-! ## Helper lemmas: decimal rendering of option indices

`f"audio_{i}"` renders `i` through `Nat.repr`, i.e. `Nat.toDigits 10 i`;
these lemmas recover `i` from that rendering. -/

theorem toDigitsCore_eq_digits : ∀ (fuel n : Nat) (ds : List Char), n < fuel →
    Nat.toDigitsCore 10 fuel n ds =
      (if n = 0 then ['0'] else ((Nat.digits 10 n).map Nat.digitChar).reverse) ++ ds := by
  intro fuel
  induction fuel with
  | zero => intro n ds h; omega
  | succ fuel ih =>
    intro n ds h
    simp only [Nat.toDigitsCore]
    by_cases hq : n / 10 = 0
    · rw [if_pos hq]
      by_cases hn : n = 0
      · subst hn; rfl
      · rw [if_neg hn]
        have hd : Nat.digits 10 n = [n % 10] := by
          rw [Nat.digits_def' (by norm_num) (Nat.pos_of_ne_zero hn), hq]
          simp
        rw [hd]
        simp
    · rw [if_neg hq]
      have hn : n ≠ 0 := by
        intro hc; subst hc; simp at hq
      have hlt : n / 10 < fuel := by omega
      rw [ih (n / 10) (Nat.digitChar (n % 10) :: ds) hlt]
      rw [if_neg hq, if_neg hn]
      rw [Nat.digits_def' (by norm_num) (Nat.pos_of_ne_zero hn)]
      simp

theorem digitChar_props (d : Nat) (h : d < 10) :
    (Nat.digitChar d).isDigit = true ∧ (Nat.digitChar d).toNat - 48 = d ∧
      Nat.digitChar d ≠ '_' := by
  interval_cases d <;> exact ⟨by decide, by decide, by decide⟩

theorem foldr_digits_eq_ofDigits (ds : List Nat) (h : ∀ d ∈ ds, d < 10) :
    ds.foldr (fun d acc => acc * 10 + ((Nat.digitChar d).toNat - 48)) 0 =
      Nat.ofDigits 10 ds := by
  induction ds with
  | nil => simp [Nat.ofDigits]
  | cons d ds ih =>
    have hd : d < 10 := h d (List.mem_cons_self _ _)
    have hds : ∀ x ∈ ds, x < 10 := fun x hx => h x (List.mem_cons_of_mem _ hx)
    simp only [List.foldr_cons, ih hds, Nat.ofDigits_cons,
      (digitChar_props d hd).2.1, Nat.cast_id]
    ring

/-- The decimal character list of `toString i` and its evaluation. -/
theorem toString_nat_data (n : Nat) :
    (toString n).data =
      (if n = 0 then ['0'] else ((Nat.digits 10 n).map Nat.digitChar).reverse) := by
  show (Nat.toDigits 10 n).asString.data = _
  show Nat.toDigitsCore 10 (n + 1) n [] = _
  rw [toDigitsCore_eq_digits (n + 1) n [] (Nat.lt_succ_self n)]
  simp

theorem charsToNat_toString (n : Nat) : charsToNat (toString n).data = n := by
  rw [toString_nat_data]
  by_cases hn : n = 0
  · subst hn; rfl
  · rw [if_neg hn]
    unfold charsToNat
    rw [List.foldl_reverse, List.foldr_map]
    have hb : ∀ d ∈ Nat.digits 10 n, d < 10 :=
      fun d hd => Nat.digits_lt_base (by norm_num) hd
    rw [foldr_digits_eq_ofDigits _ hb, Nat.ofDigits_digits]

theorem toString_nat_all_digits (n : Nat) :
    (toString n).data ≠ [] ∧ (toString n).data.all Char.isDigit = true ∧
      '_' ∉ (toString n).data := by
  rw [toString_nat_data]
  by_cases hn : n = 0
  · subst hn; exact ⟨by decide, by decide, by decide⟩
  · rw [if_neg hn]
    have hb : ∀ d ∈ Nat.digits 10 n, d < 10 :=
      fun d hd => Nat.digits_lt_base (by norm_num) hd
    refine ⟨?_, ?_, ?_⟩
    · simp [Nat.digits_ne_nil_iff_ne_zero.mpr hn]
    · rw [List.all_eq_true]
      intro c hc
      rw [List.mem_reverse, List.mem_map] at hc
      obtain ⟨d, hd, rfl⟩ := hc
      exact (digitChar_props d (hb d hd)).1
    · intro hc
      rw [List.mem_reverse, List.mem_map] at hc
      obtain ⟨d, hd, hdc⟩ := hc
      exact (digitChar_props d (hb d hd)).2.2 hdc

/-! ## Helper lemmas: `option_id.split('_')` -/

theorem splitOnChar_cons (sep c : Char) (rest : List Char) :
    splitOnChar sep (c :: rest) =
      if c == sep then [] :: splitOnChar sep rest
      else (c :: (splitOnChar sep rest).headI) :: (splitOnChar sep rest).tail := rfl

theorem splitOnChar_no_sep (sep : Char) (l : List Char) (h : sep ∉ l) :
    splitOnChar sep l = [l] := by
  induction l with
  | nil => rfl
  | cons c rest ih =>
    have hc : ¬(c == sep) = true := by
      simp only [beq_iff_eq]
      intro hcc
      exact h (hcc ▸ List.mem_cons_self _ _)
    have hrest : sep ∉ rest := fun hr => h (List.mem_cons_of_mem _ hr)
    rw [splitOnChar_cons, if_neg hc, ih hrest]
    rfl

theorem splitOnChar_append (sep : Char) (t d : List Char) (h : sep ∉ t) :
    splitOnChar sep (t ++ sep :: d) = t :: splitOnChar sep d := by
  induction t with
  | nil => simp [splitOnChar]
  | cons c t' ih =>
    have hc : ¬(c == sep) = true := by
      simp only [beq_iff_eq]
      intro hcc
      exact h (hcc ▸ List.mem_cons_self _ _)
    have ht' : sep ∉ t' := fun hr => h (List.mem_cons_of_mem _ hr)
    simp only [List.cons_append]
    rw [splitOnChar_cons, if_neg hc, ih ht']
    rfl

theorem parseOptionId_roundtrip (tag : String) (i : Nat) (htag : '_' ∉ tag.data) :
    parseOptionId (tag ++ "_" ++ toString i) = some (tag, i) := by
  have hdata : (tag ++ "_" ++ toString i).data =
      tag.data ++ '_' :: (toString i).data := by
    rw [String.data_append, String.data_append, List.append_assoc]
    rfl
  obtain ⟨hne, hdig, hus⟩ := toString_nat_all_digits i
  unfold parseOptionId
  rw [hdata, splitOnChar_append _ _ _ htag, splitOnChar_no_sep _ _ hus]
  simp only [List.map_cons, List.map_nil]
  have htag' : String.mk tag.data = tag := rfl
  have hnum : pyInt (String.mk (toString i).data) = some i := by
    unfold pyInt
    rw [if_pos ⟨hne, hdig⟩]
    rw [charsToNat_toString]
  rw [htag', hnum]
  rfl

/-- C2: the three filter-and-sort pipelines used by `download_selected`
are the same functions of the handle as those used by
`get_format_options`, and every option id `{type}_{i}` produced by the
formats step parses back to its type tag and positional index, which
therefore resolves to the same stream in both endpoints. -/
theorem c2_replay_resolves_same_stream :
    (∀ yt : YouTube,
      download_audio_streams yt = formats_audio_streams yt ∧
      download_progressive_streams yt = formats_progressive_streams yt ∧
      download_adaptive_streams yt = formats_adaptive_streams yt) ∧
    (∀ (yt : YouTube) (i : Nat) (opt : StreamOption),
      ((audio_options yt).get? i = some opt →
        parseOptionId opt.id = some ("audio", i) ∧
        (download_audio_streams yt).get? i = (formats_audio_streams yt).get? i) ∧
      (((formats_progressive_streams yt).enum.map
          (fun p => progressive_option p.1 p.2)).get? i = some opt →
        parseOptionId opt.id = some ("progressive", i) ∧
        (download_progressive_streams yt).get? i =
          (formats_progressive_streams yt).get? i) ∧
      (((formats_adaptive_streams yt).enum.map
          (fun p => adaptive_option p.1 p.2)).get? i = some opt →
        parseOptionId opt.id = some ("adaptive", i) ∧
        (download_adaptive_streams yt).get? i =
          (formats_adaptive_streams yt).get? i)) := by
  constructor
  · exact fun yt => ⟨rfl, rfl, rfl⟩
  · intro yt i opt
    refine ⟨fun h => ⟨?_, rfl⟩, fun h => ⟨?_, rfl⟩, fun h => ⟨?_, rfl⟩⟩
    · unfold audio_options at h
      rw [List.get?_map, List.get?_enum] at h
      cases hs : (formats_audio_streams yt).get? i with
      | none => rw [hs] at h; exact absurd h (by simp)
      | some s =>
        rw [hs] at h
        simp only [Option.map_some'] at h
        have hid : opt.id = "audio" ++ "_" ++ toString i := by
          rw [← Option.some_inj.mp h]
          rfl
        rw [hid]
        exact parseOptionId_roundtrip "audio" i (by decide)
    · rw [List.get?_map, List.get?_enum] at h
      cases hs : (formats_progressive_streams yt).get? i with
      | none => rw [hs] at h; exact absurd h (by simp)
      | some s =>
        rw [hs] at h
        simp only [Option.map_some'] at h
        have hid : opt.id = "progressive" ++ "_" ++ toString i := by
          rw [← Option.some_inj.mp h]
          rfl
        rw [hid]
        exact parseOptionId_roundtrip "progressive" i (by decide)
    · rw [List.get?_map, List.get?_enum] at h
      cases hs : (formats_adaptive_streams yt).get? i with
      | none => rw [hs] at h; exact absurd h (by simp)
      | some s =>
        rw [hs] at h
        simp only [Option.map_some'] at h
        have hid : opt.id = "adaptive" ++ "_" ++ toString i := by
          rw [← Option.some_inj.mp h]
          rfl
        rw [hid]
        exact parseOptionId_roundtrip "adaptive" i (by decide)

/-- Witness for `c2_replay_resolves_same_stream`: the first audio option
of the demo handle replays to `("audio", 0)` and both pipelines agree
there. -/
theorem c2_replay_resolves_same_stream_witness :
    parseOptionId (audio_option 0 demoAudio128).id = some ("audio", 0) ∧
    (download_audio_streams demoYT).get? 0 = (formats_audio_streams demoYT).get? 0 :=
  (c2_replay_resolves_same_stream.2 demoYT 0 (audio_option 0 demoAudio128)).1 rfl

/-! ## Determinism of the formats step -/

theorem audio_options_of_streams (y1 y2 : YouTube) (h : y1.streams = y2.streams) :
    audio_options y1 = audio_options y2 := by
  unfold audio_options formats_audio_streams
  rw [h]

theorem mp4_options_of_streams (y1 y2 : YouTube) (h : y1.streams = y2.streams) :
    mp4_options y1 = mp4_options y2 := by
  unfold mp4_options formats_progressive_streams formats_adaptive_streams
  rw [h]

/-- C5: `get_format_options` is deterministic in its inputs — two runs
against cached handles with the same underlying stream list and the
same format type produce identical responses: same option ordering,
same ids, same field values in every position (the enumeration is a
pure function of the stream list and the format type alone). -/
theorem c5_formats_deterministic (c1 c2 : Cache) (id1 id2 t1 t2 : String)
    (y1 y2 : YouTube) (h1 : get_cached_youtube c1 id1 = some y1)
    (h2 : get_cached_youtube c2 id2 = some y2) (hs : y1.streams = y2.streams)
    (ht : t1 = t2) :
    get_format_options c1 id1 t1 = get_format_options c2 id2 t2 := by
  subst ht
  unfold get_format_options get_format_options_body
  rw [h1, h2]
  simp only [audio_options_of_streams y1 y2 hs, mp4_options_of_streams y1 y2 hs]

/-- Witness for `c5_formats_deterministic`: two caches holding handles
with the same streams but different titles and different ids answer
`/formats` identically. -/
theorem c5_formats_deterministic_witness :
    get_format_options demoCache1 "k" "mp3" = get_format_options demoCache2 "q" "mp3" :=
  c5_formats_deterministic demoCache1 demoCache2 "k" "q" "mp3" "mp3" demoYT demoYTOther
    rfl rfl rfl rfl

/-! ## Error statuses actually produced -/

/-- C3 (the code contradicts it): a cache miss on `/formats` or
`/download` does not surface as a 404 — the `except Exception` clause
catches the `HTTPException(404)` raised inside the `try:` body
(starlette's `HTTPException` subclasses `Exception`) and re-raises it
wrapped in an `HTTPException(500)`, so the client receives status 500
with the 404 text embedded in the detail string. -/
theorem c3_cache_miss_becomes_500 :
    get_format_options [] "missing" "mp3" =
      .httpError 500
        "Error getting format options: 404: Video not found in cache. Please fetch info first." ∧
    (download_selected [] "missing" "audio_0" true []).1 =
      .httpError 500 "Download failed: 404: Video not found in cache" :=
  ⟨rfl, rfl⟩

/-- C4 (the code contradicts it): an invalid `format_type` on
`/formats` and an `option_id` with an unknown type tag on `/download`
do not surface as 400 — the `HTTPException(400)` raised inside the
`try:` body is caught by `except Exception` and re-raised as a 500. -/
theorem c4_invalid_identifiers_become_500 :
    get_format_options demoCache1 "k" "avi" =
      .httpError 500
        "Error getting format options: 400: Invalid format type. Use 'mp3' or 'mp4'" ∧
    (download_selected demoCache1 "k" "bogus_0" true []).1 =
      .httpError 500 "Download failed: 400: Invalid option ID" :=
  ⟨rfl, rfl⟩

/-! ## Helper lemmas: the filesystem model -/

theorem fsGet_fsSet_self (fs : FS) (p : String) (c : Content) :
    fsGet (fsSet fs p c) p = some c := by
  simp [fsGet, fsSet]

theorem fsGet_fsRemove_self (fs : FS) (p : String) :
    fsGet (fsRemove fs p) p = none := by
  unfold fsGet fsRemove
  rw [List.find?_eq_none.mpr]
  · rfl
  · intro e he
    have := (List.mem_filter.mp he).2
    simpa using this

theorem fsGet_fsRemove_ne (fs : FS) (p q : String) (h : p ≠ q) :
    fsGet (fsRemove fs q) p = fsGet fs p := by
  induction fs with
  | nil => rfl
  | cons e rest ih =>
    unfold fsGet fsRemove at ih ⊢
    by_cases he : (e.1 == q) = true
    · have hep : (e.1 == p) = false := by
        rw [beq_iff_eq] at he
        rw [beq_eq_false_iff_ne]
        exact fun hc => h (hc.symm.trans he)
      rw [List.filter_cons, if_neg (by simp [he])]
      simp only [List.find?_cons, hep]
      exact ih
    · rw [List.filter_cons, if_pos (by simp [he])]
      cases hb : (e.1 == p)
      · simp only [List.find?_cons, hb]
        exact ih
      · simp only [List.find?_cons, hb]

theorem fsGet_fsSet_ne (fs : FS) (p q : String) (c : Content) (h : p ≠ q) :
    fsGet (fsSet fs q c) p = fsGet fs p := by
  unfold fsSet
  show fsGet ((q, c) :: fsRemove fs q) p = fsGet fs p
  unfold fsGet
  rw [List.find?_cons_of_neg _ (by simp [beq_eq_false_iff_ne]; exact fun hc => h hc.symm)]
  exact fsGet_fsRemove_ne fs p q h

theorem fsHas_fsSet_of (fs : FS) (p q : String) (c : Content)
    (h : fsHas fs p = true) : fsHas (fsSet fs q c) p = true := by
  unfold fsHas at h ⊢
  by_cases hpq : p = q
  · subst hpq
    rw [fsGet_fsSet_self]
    rfl
  · rw [fsGet_fsSet_ne fs p q c hpq]
    exact h

theorem fsHas_fsSet_self (fs : FS) (p : String) (c : Content) :
    fsHas (fsSet fs p c) p = true := by
  unfold fsHas
  rw [fsGet_fsSet_self]
  rfl

theorem fsHas_remove_remove_first (fs : FS) (p q : String) :
    fsHas (fsRemove (fsRemove fs p) q) p = false := by
  unfold fsHas
  by_cases h : p = q
  · subst h
    rw [fsGet_fsRemove_self]
    rfl
  · rw [fsGet_fsRemove_ne _ _ _ h, fsGet_fsRemove_self]
    rfl

theorem fsHas_remove_remove_second (fs : FS) (p q : String) :
    fsHas (fsRemove (fsRemove fs p) q) q = false := by
  unfold fsHas
  rw [fsGet_fsRemove_self]
  rfl

/-! ## The download branches -/

/-- C10: for an `audio_{i}` option the external transcoder is never
invoked — the selected stream is downloaded in its native container and
the file is merely renamed to a `.mp3` extension, so the returned
`.mp3` file still holds the stream's original container bytes. -/
theorem c10_audio_rename_no_transcode (cache : Cache) (cid oid : String)
    (yt : YouTube) (i : Nat) (sel : MediaStream) (ok : Bool) (fs : FS)
    (hyt : get_cached_youtube cache cid = some yt)
    (hp : parseOptionId oid = some ("audio", i))
    (hsel : (download_audio_streams yt).get? i = some sel) :
    (download_selected cache cid oid ok fs).1 =
      .ok { path := splitextBase (plainDlPath sel) ++ ".mp3",
            filename := safeTitle yt.title ++ ".mp3" } ∧
    (download_selected cache cid oid ok fs).2.2 =
      [.download sel (plainDlPath sel),
        .rename (plainDlPath sel) (splitextBase (plainDlPath sel) ++ ".mp3")] ∧
    (∀ cmd : List String, Event.ffmpeg cmd ∉ (download_selected cache cid oid ok fs).2.2) ∧
    fsGet (download_selected cache cid oid ok fs).2.1
      (splitextBase (plainDlPath sel) ++ ".mp3") = some (.streamData sel) := by
  have hrun : download_selected cache cid oid ok fs =
      (.ok { path := splitextBase (plainDlPath sel) ++ ".mp3",
             filename := safeTitle yt.title ++ ".mp3" },
        fsRename (fsSet fs (plainDlPath sel) (.streamData sel)) (plainDlPath sel)
          (splitextBase (plainDlPath sel) ++ ".mp3"),
        [.download sel (plainDlPath sel),
          .rename (plainDlPath sel) (splitextBase (plainDlPath sel) ++ ".mp3")]) := by
    unfold download_selected download_selected_body
    simp only [hyt, hp, hsel, streamDownload, plainDlPath, beq_self_eq_true, if_true]
  rw [hrun]
  refine ⟨rfl, rfl, ?_, ?_⟩
  · intro cmd hmem
    simp at hmem
  · show fsGet (fsRename (fsSet fs (plainDlPath sel) (.streamData sel)) (plainDlPath sel)
      (splitextBase (plainDlPath sel) ++ ".mp3")) (splitextBase (plainDlPath sel) ++ ".mp3") =
      some (.streamData sel)
    unfold fsRename
    rw [fsGet_fsSet_self]
    rw [fsGet_fsSet_self]

/-- Witness for `c10_audio_rename_no_transcode` at the demo handle with
option `audio_0`. -/
theorem c10_audio_rename_no_transcode_witness :
    (download_selected demoCache1 "k" "audio_0" true []).1 =
      .ok { path := splitextBase (plainDlPath demoAudio128) ++ ".mp3",
            filename := safeTitle demoYT.title ++ ".mp3" } ∧
    (download_selected demoCache1 "k" "audio_0" true []).2.2 =
      [.download demoAudio128 (plainDlPath demoAudio128),
        .rename (plainDlPath demoAudio128) (splitextBase (plainDlPath demoAudio128) ++ ".mp3")] ∧
    (∀ cmd : List String,
      Event.ffmpeg cmd ∉ (download_selected demoCache1 "k" "audio_0" true []).2.2) ∧
    fsGet (download_selected demoCache1 "k" "audio_0" true []).2.1
      (splitextBase (plainDlPath demoAudio128) ++ ".mp3") =
      some (.streamData demoAudio128) :=
  c10_audio_rename_no_transcode demoCache1 "k" "audio_0" demoYT 0 demoAudio128 true []
    rfl rfl rfl

/-- The adaptive branch on a successful merge, in closed form. -/
theorem adaptive_run_ok (cache : Cache) (cid oid : String) (yt : YouTube)
    (i : Nat) (selV selA : MediaStream) (fs : FS)
    (hyt : get_cached_youtube cache cid = some yt)
    (hp : parseOptionId oid = some ("adaptive", i))
    (hv : (download_adaptive_streams yt).get? i = some selV)
    (ha : download_best_audio yt = some selA) :
    download_selected cache cid oid true fs =
      (.ok { path := adaptiveOutputPath yt selV, filename := adaptiveOutputName yt selV },
        fsRemove (fsRemove
          (fsSet (fsSet (fsSet fs (tempVideoPath selV) (.streamData selV))
              (tempAudioPath selA) (.streamData selA))
            (adaptiveOutputPath yt selV)
            (.mergedOutput (tempVideoPath selV) (tempAudioPath selA)))
          (tempVideoPath selV)) (tempAudioPath selA),
        [.download selV (tempVideoPath selV), .download selA (tempAudioPath selA),
          .ffmpeg (ffmpegCmd (tempVideoPath selV) (tempAudioPath selA)
            (adaptiveOutputPath yt selV)),
          .remove (tempVideoPath selV), .remove (tempAudioPath selA)]) := by
  have e1 : (("adaptive" : String) == "audio") = false := by decide
  have e2 : (("adaptive" : String) == "progressive") = false := by decide
  unfold download_selected download_selected_body
  simp only [hyt, hp, hv, ha, e1, e2, beq_self_eq_true, if_true, Bool.false_eq_true,
    if_false, streamDownload, tempVideoPath, tempAudioPath, adaptiveOutputPath,
    adaptiveOutputName]

/-- The adaptive branch on a failed merge, in closed form. -/
theorem adaptive_run_fail (cache : Cache) (cid oid : String) (yt : YouTube)
    (i : Nat) (selV selA : MediaStream) (fs : FS)
    (hyt : get_cached_youtube cache cid = some yt)
    (hp : parseOptionId oid = some ("adaptive", i))
    (hv : (download_adaptive_streams yt).get? i = some selV)
    (ha : download_best_audio yt = some selA) :
    download_selected cache cid oid false fs =
      (.httpError 500 "Download failed: 500: FFmpeg merge failed",
        fsSet (fsSet fs (tempVideoPath selV) (.streamData selV))
          (tempAudioPath selA) (.streamData selA),
        [.download selV (tempVideoPath selV), .download selA (tempAudioPath selA),
          .ffmpeg (ffmpegCmd (tempVideoPath selV) (tempAudioPath selA)
            (adaptiveOutputPath yt selV))]) := by
  have e1 : (("adaptive" : String) == "audio") = false := by decide
  have e2 : (("adaptive" : String) == "progressive") = false := by decide
  unfold download_selected download_selected_body
  simp only [hyt, hp, hv, ha, e1, e2, beq_self_eq_true, if_true, Bool.false_eq_true,
    if_false, streamDownload, tempVideoPath, tempAudioPath, adaptiveOutputPath,
    adaptiveOutputName]
  rfl

/-- C6 (amended): for a download request with option id `adaptive_{i}`,
the service downloads the video-only stream at position `i` of the
descending-resolution adaptive pipeline (the best one exactly when
`i = 0`) and the best audio-only stream, and invokes the external
transcoder with the video copied without re-encoding (`-c:v copy`) and
the audio re-encoded to AAC (`-c:a aac`). -/
theorem c6_adaptive_fetch_and_merge (cache : Cache) (cid oid : String)
    (yt : YouTube) (i : Nat) (selV selA : MediaStream) (ok : Bool) (fs : FS)
    (hyt : get_cached_youtube cache cid = some yt)
    (hp : parseOptionId oid = some ("adaptive", i))
    (hv : (download_adaptive_streams yt).get? i = some selV)
    (ha : download_best_audio yt = some selA) :
    (download_selected cache cid oid ok fs).2.2.take 3 =
      [.download selV (tempVideoPath selV), .download selA (tempAudioPath selA),
        .ffmpeg ["ffmpeg", "-i", tempVideoPath selV, "-i", tempAudioPath selA,
          "-c:v", "copy", "-c:a", "aac", "-y", adaptiveOutputPath yt selV]] := by
  cases ok
  · rw [adaptive_run_fail cache cid oid yt i selV selA fs hyt hp hv ha]
    rfl
  · rw [adaptive_run_ok cache cid oid yt i selV selA fs hyt hp hv ha]
    rfl

/-- C6 as stated is false at a concrete input: on the demo handle,
option `adaptive_1` makes the service download the 720p adaptive video
stream even though the best video-only stream of the pipeline is the
1080p one. -/
theorem c6_counterexample :
    (download_selected demoCache1 "k" "adaptive_1" true []).2.2.head? =
      some (.download demoV720 (tempVideoPath demoV720)) ∧
    (download_adaptive_streams demoYT).head? = some demoV1080 ∧
    demoV720 ≠ demoV1080 :=
  ⟨rfl, rfl, by decide⟩

/-- Witness for `c6_adaptive_fetch_and_merge` at the demo handle with
option `adaptive_0`. -/
theorem c6_adaptive_fetch_and_merge_witness :
    (download_selected demoCache1 "k" "adaptive_0" true []).2.2.take 3 =
      [.download demoV1080 (tempVideoPath demoV1080),
        .download demoAudio128 (tempAudioPath demoAudio128),
        .ffmpeg ["ffmpeg", "-i", tempVideoPath demoV1080, "-i", tempAudioPath demoAudio128,
          "-c:v", "copy", "-c:a", "aac", "-y", adaptiveOutputPath demoYT demoV1080]] :=
  c6_adaptive_fetch_and_merge demoCache1 "k" "adaptive_0" demoYT 0 demoV1080 demoAudio128
    true [] rfl rfl rfl rfl

/-- C7: after a successful adaptive download the two temporary input
files no longer exist in the downloads directory, the merged output
exists there, and the merged output is exactly the file returned to the
client (hypotheses: the output path differs from the two temp paths,
which the `temp_video_`/`temp_audio_` prefixes ensure for every title
that does not itself produce a colliding `temp_…` name). -/
theorem c7_adaptive_success_cleanup (cache : Cache) (cid oid : String) (yt : YouTube)
    (i : Nat) (selV selA : MediaStream) (fs : FS)
    (hyt : get_cached_youtube cache cid = some yt)
    (hp : parseOptionId oid = some ("adaptive", i))
    (hv : (download_adaptive_streams yt).get? i = some selV)
    (ha : download_best_audio yt = some selA)
    (hov : adaptiveOutputPath yt selV ≠ tempVideoPath selV)
    (hoa : adaptiveOutputPath yt selV ≠ tempAudioPath selA) :
    (download_selected cache cid oid true fs).1 =
      .ok { path := adaptiveOutputPath yt selV, filename := adaptiveOutputName yt selV } ∧
    fsHas (download_selected cache cid oid true fs).2.1 (tempVideoPath selV) = false ∧
    fsHas (download_selected cache cid oid true fs).2.1 (tempAudioPath selA) = false ∧
    fsGet (download_selected cache cid oid true fs).2.1 (adaptiveOutputPath yt selV) =
      some (.mergedOutput (tempVideoPath selV) (tempAudioPath selA)) := by
  rw [adaptive_run_ok cache cid oid yt i selV selA fs hyt hp hv ha]
  refine ⟨rfl, ?_, ?_, ?_⟩
  · exact fsHas_remove_remove_first _ _ _
  · exact fsHas_remove_remove_second _ _ _
  · rw [fsGet_fsRemove_ne _ _ _ hoa, fsGet_fsRemove_ne _ _ _ hov, fsGet_fsSet_self]

/-- Witness for `c7_adaptive_success_cleanup` at the demo handle with
option `adaptive_0`. -/
theorem c7_adaptive_success_cleanup_witness :
    (download_selected demoCache1 "k" "adaptive_0" true []).1 =
      .ok { path := adaptiveOutputPath demoYT demoV1080,
            filename := adaptiveOutputName demoYT demoV1080 } ∧
    fsHas (download_selected demoCache1 "k" "adaptive_0" true []).2.1
      (tempVideoPath demoV1080) = false ∧
    fsHas (download_selected demoCache1 "k" "adaptive_0" true []).2.1
      (tempAudioPath demoAudio128) = false ∧
    fsGet (download_selected demoCache1 "k" "adaptive_0" true []).2.1
      (adaptiveOutputPath demoYT demoV1080) =
      some (.mergedOutput (tempVideoPath demoV1080) (tempAudioPath demoAudio128)) :=
  c7_adaptive_success_cleanup demoCache1 "k" "adaptive_0" demoYT 0 demoV1080 demoAudio128
    [] rfl rfl rfl rfl (by decide) (by decide)

/-- C9: when the FFmpeg merge of an adaptive download fails, the two
temporary input files remain in the downloads directory — the
`os.remove` cleanup runs only on the success branch — and the request
returns an error (the 500 produced by re-wrapping the raised
`HTTPException`); the event trace ends at the transcoder invocation
with no removals. -/
theorem c9_merge_failure_leaves_temps (cache : Cache) (cid oid : String) (yt : YouTube)
    (i : Nat) (selV selA : MediaStream) (fs : FS)
    (hyt : get_cached_youtube cache cid = some yt)
    (hp : parseOptionId oid = some ("adaptive", i))
    (hv : (download_adaptive_streams yt).get? i = some selV)
    (ha : download_best_audio yt = some selA) :
    (download_selected cache cid oid false fs).1 =
      .httpError 500 "Download failed: 500: FFmpeg merge failed" ∧
    fsHas (download_selected cache cid oid false fs).2.1 (tempVideoPath selV) = true ∧
    fsHas (download_selected cache cid oid false fs).2.1 (tempAudioPath selA) = true ∧
    (download_selected cache cid oid false fs).2.2 =
      [.download selV (tempVideoPath selV), .download selA (tempAudioPath selA),
        .ffmpeg (ffmpegCmd (tempVideoPath selV) (tempAudioPath selA)
          (adaptiveOutputPath yt selV))] := by
  rw [adaptive_run_fail cache cid oid yt i selV selA fs hyt hp hv ha]
  refine ⟨rfl, ?_, ?_, rfl⟩
  · exact fsHas_fsSet_of _ _ _ _ (fsHas_fsSet_self _ _ _)
  · exact fsHas_fsSet_self _ _ _

/-- Witness for `c9_merge_failure_leaves_temps` at the demo handle with
option `adaptive_0` and a failing transcoder. -/
theorem c9_merge_failure_leaves_temps_witness :
    (download_selected demoCache1 "k" "adaptive_0" false []).1 =
      .httpError 500 "Download failed: 500: FFmpeg merge failed" ∧
    fsHas (download_selected demoCache1 "k" "adaptive_0" false []).2.1
      (tempVideoPath demoV1080) = true ∧
    fsHas (download_selected demoCache1 "k" "adaptive_0" false []).2.1
      (tempAudioPath demoAudio128) = true ∧
    (download_selected demoCache1 "k" "adaptive_0" false []).2.2 =
      [.download demoV1080 (tempVideoPath demoV1080),
        .download demoAudio128 (tempAudioPath demoAudio128),
        .ffmpeg (ffmpegCmd (tempVideoPath demoV1080) (tempAudioPath demoAudio128)
          (adaptiveOutputPath demoYT demoV1080))] :=
  c9_merge_failure_leaves_temps demoCache1 "k" "adaptive_0" demoYT 0 demoV1080
    demoAudio128 [] rfl rfl rfl rfl

/-! ## Helper lemmas: `process_youtube_url` -/

theorem lpre_of_take (p : List Char) : ∀ (a b : List Char),
    lpre (p.take a.length) a = false → lpre p (a ++ b) = false := by
  intro a
  induction a generalizing p with
  | nil => intro b h; simp [lpre] at h
  | cons c a' ih =>
    intro b h
    cases p with
    | nil => simp [lpre] at h
    | cons q p' =>
      simp only [List.length_cons, List.take_succ_cons, lpre, List.cons_append] at h ⊢
      cases hqc : (q == c) with
      | false => simp [hqc]
      | true =>
        simp only [hqc, Bool.true_and] at h ⊢
        exact ih p' b h

theorem lpre_append_of (p : List Char) : ∀ (x t : List Char),
    lpre p x = true → lpre p (x ++ t) = true := by
  intro x
  induction x generalizing p with
  | nil =>
    intro t h
    cases p with
    | nil => rfl
    | cons q p' => simp [lpre] at h
  | cons c x' ih =>
    intro t h
    cases p with
    | nil => rfl
    | cons q p' =>
      simp only [lpre, List.cons_append, Bool.and_eq_true] at h ⊢
      exact ⟨h.1, ih p' t h.2⟩

theorem lpre_refl (p : List Char) : lpre p p = true := by
  induction p with
  | nil => rfl
  | cons c p' ih => simp [lpre, ih]

theorem lpre_self_append (p b : List Char) : lpre p (p ++ b) = true :=
  lpre_append_of p p b (lpre_refl p)

theorem stripShared_cons (c : Char) (rest : List Char) :
    stripShared (c :: rest) =
      if lpre featureMarker (c :: rest) then [] else c :: stripShared rest := rfl

theorem stripShared_decomp (l : List Char) : ∃ t, l = stripShared l ++ t := by
  induction l with
  | nil => exact ⟨[], rfl⟩
  | cons c rest ih =>
    by_cases h : lpre featureMarker (c :: rest) = true
    · exact ⟨c :: rest, by rw [stripShared_cons, if_pos h]; rfl⟩
    · obtain ⟨t, ht⟩ := ih
      refine ⟨t, ?_⟩
      rw [stripShared_cons, if_neg h, List.cons_append]
      exact congrArg (c :: ·) ht

theorem stripShared_stable (l : List Char) : stripShared (stripShared l) = stripShared l := by
  induction l with
  | nil => rfl
  | cons c rest ih =>
    rw [stripShared_cons]
    by_cases h : lpre featureMarker (c :: rest) = true
    · rw [if_pos h]
      rfl
    · rw [if_neg h, stripShared_cons]
      have hfail : ¬ lpre featureMarker (c :: stripShared rest) = true := by
        intro hc
        obtain ⟨t, ht⟩ := stripShared_decomp rest
        have hext : lpre featureMarker ((c :: stripShared rest) ++ t) = true :=
          lpre_append_of _ _ _ hc
        rw [List.cons_append, ← ht] at hext
        exact h hext
      rw [if_neg hfail, ih]

theorem stripShared_append : ∀ (a b : List Char),
    (∀ i, i < a.length → lpre (featureMarker.take (a.length - i)) (a.drop i) = false) →
    stripShared (a ++ b) = a ++ stripShared b := by
  intro a
  induction a with
  | nil => intro b H; rfl
  | cons c a' ih =>
    intro b H
    have h0 : lpre featureMarker ((c :: a') ++ b) = false := by
      apply lpre_of_take
      have := H 0 (by simp)
      simpa using this
    rw [List.cons_append] at h0
    rw [List.cons_append, stripShared_cons]
    rw [if_neg (by simp [h0])]
    have Hs : ∀ i, i < a'.length →
        lpre (featureMarker.take (a'.length - i)) (a'.drop i) = false := by
      intro i hi
      have := H (i + 1) (by simp only [List.length_cons]; omega)
      simpa [Nat.succ_sub_succ] using this
    rw [ih b Hs]
    rfl

theorem stripShared_allVid (l : List Char) (h : l.all isVidChar = true) :
    stripShared l = l := by
  induction l with
  | nil => rfl
  | cons c rest ih =>
    rw [List.all_cons, Bool.and_eq_true] at h
    have hq : ('?' == c) = false := by
      rw [beq_eq_false_iff_ne]
      intro hc
      have := h.1
      rw [← hc] at this
      exact absurd this (by decide)
    have hm : lpre featureMarker (c :: rest) = false := by
      have hmarker : featureMarker = '?' :: "feature=shared".data := rfl
      rw [hmarker]
      simp [lpre, hq]
    rw [stripShared_cons, if_neg (by simp [hm]), ih h.2]

theorem searchPat1_cons (c : Char) (rest : List Char) :
    searchPat1 (c :: rest) =
      match tryAt (c :: rest) with
      | some v => some v
      | none => searchPat1 rest := rfl

theorem searchPat2_cons (c : Char) (rest : List Char) :
    searchPat2 (c :: rest) =
      match take11class (c :: rest) with
      | some v => some v
      | none => searchPat2 rest := rfl

theorem tryAt_eq_none (l : List Char) (h : ∀ p ∈ alts, lpre p l = false) :
    tryAt l = none := by
  have h1 := h altWatch (by simp [alts])
  have h2 := h altBe (by simp [alts])
  have h3 := h altEmbed (by simp [alts])
  have h4 := h altV (by simp [alts])
  have h5 := h altShorts (by simp [alts])
  simp [tryAt, matchAfter, h1, h2, h3, h4, h5]

theorem searchPat1_append_skip : ∀ (a b : List Char),
    (∀ i, i < a.length → ∀ p ∈ alts, lpre (p.take (a.length - i)) (a.drop i) = false) →
    searchPat1 (a ++ b) = searchPat1 b := by
  intro a
  induction a with
  | nil => intro b H; rfl
  | cons c a' ih =>
    intro b H
    have hnone : tryAt (c :: (a' ++ b)) = none := by
      apply tryAt_eq_none
      intro p hp
      have hfail : lpre p ((c :: a') ++ b) = false := by
        apply lpre_of_take
        have := H 0 (by simp) p hp
        simpa using this
      rw [List.cons_append] at hfail
      exact hfail
    rw [List.cons_append, searchPat1_cons, hnone]
    show searchPat1 (a' ++ b) = searchPat1 b
    refine ih b ?_
    intro i hi p hp
    have := H (i + 1) (by simp only [List.length_cons]; omega) p hp
    simpa [Nat.succ_sub_succ] using this

theorem take11class_of_valid (v : List Char) (h1 : v.length = 11)
    (h2 : v.all isVidChar = true) : take11class v = some v := by
  have ht : v.take 11 = v := by
    rw [← h1]
    exact List.take_length v
  simp [take11class, ht, h1, h2]

theorem searchPat1_watch (v : List Char) (h1 : v.length = 11)
    (h2 : v.all isVidChar = true) : searchPat1 (altWatch ++ v) = some v := by
  have hm : matchAfter altWatch (altWatch ++ v) = some v := by
    unfold matchAfter
    rw [if_pos (lpre_self_append altWatch v)]
    rw [show (altWatch ++ v).drop altWatch.length = v from List.drop_left altWatch v]
    exact take11class_of_valid v h1 h2
  have hcons : altWatch ++ v = 'y' :: ("outube.com/watch?v=".data ++ v) := rfl
  rw [hcons] at hm
  rw [hcons, searchPat1_cons]
  have htry : tryAt ('y' :: ("outube.com/watch?v=".data ++ v)) = some v := by
    unfold tryAt
    rw [hm]
  rw [htry]

theorem take11class_valid (l v : List Char) (h : take11class l = some v) :
    v.length = 11 ∧ v.all isVidChar = true := by
  unfold take11class at h
  by_cases hc : ((l.take 11).length == 11 && (l.take 11).all isVidChar) = true
  · rw [if_pos hc] at h
    have hv := Option.some_inj.mp h
    subst hv
    rw [Bool.and_eq_true] at hc
    exact ⟨by simpa using hc.1, hc.2⟩
  · rw [if_neg hc] at h
    exact absurd h (by simp)

theorem matchAfter_valid (p l v : List Char) (h : matchAfter p l = some v) :
    v.length = 11 ∧ v.all isVidChar = true := by
  unfold matchAfter at h
  by_cases hc : lpre p l = true
  · rw [if_pos hc] at h
    exact take11class_valid _ _ h
  · rw [if_neg hc] at h
    exact absurd h (by simp)

theorem tryAt_valid (l v : List Char) (h : tryAt l = some v) :
    v.length = 11 ∧ v.all isVidChar = true := by
  cases hw : matchAfter altWatch l with
  | some w =>
    simp only [tryAt, hw] at h
    exact (Option.some_inj.mp h) ▸ matchAfter_valid _ _ _ hw
  | none =>
    cases hb : matchAfter altBe l with
    | some w =>
      simp only [tryAt, hw, hb] at h
      exact (Option.some_inj.mp h) ▸ matchAfter_valid _ _ _ hb
    | none =>
      cases he : matchAfter altEmbed l with
      | some w =>
        simp only [tryAt, hw, hb, he] at h
        exact (Option.some_inj.mp h) ▸ matchAfter_valid _ _ _ he
      | none =>
        cases hv : matchAfter altV l with
        | some w =>
          simp only [tryAt, hw, hb, he, hv] at h
          exact (Option.some_inj.mp h) ▸ matchAfter_valid _ _ _ hv
        | none =>
          simp only [tryAt, hw, hb, he, hv] at h
          exact matchAfter_valid _ _ _ h

theorem searchPat1_valid (l v : List Char) (h : searchPat1 l = some v) :
    v.length = 11 ∧ v.all isVidChar = true := by
  induction l with
  | nil => exact absurd h (by simp [searchPat1])
  | cons c rest ih =>
    rw [searchPat1_cons] at h
    cases ht : tryAt (c :: rest) with
    | some w =>
      rw [ht] at h
      have hw := Option.some_inj.mp h
      exact hw ▸ tryAt_valid _ _ ht
    | none =>
      rw [ht] at h
      exact ih h

theorem searchPat2_valid (l v : List Char) (h : searchPat2 l = some v) :
    v.length = 11 ∧ v.all isVidChar = true := by
  induction l with
  | nil => exact absurd h (by simp [searchPat2])
  | cons c rest ih =>
    rw [searchPat2_cons] at h
    cases ht : take11class (c :: rest) with
    | some w =>
      rw [ht] at h
      have hw := Option.some_inj.mp h
      exact hw ▸ take11class_valid _ _ ht
    | none =>
      rw [ht] at h
      exact ih h

theorem canonPre_split : canonPre = preW ++ altWatch := by decide

theorem stripShared_canonical (v : List Char) (h2 : v.all isVidChar = true) :
    stripShared (canonical v) = canonical v := by
  unfold canonical
  rw [stripShared_append canonPre v (by decide), stripShared_allVid v h2]

theorem no_host_start_canonical (v : List Char) :
    lpre httpsPre (canonical v) = false ∧ lpre httpPre (canonical v) = false := by
  constructor
  · show lpre httpsPre (canonPre ++ v) = false
    exact lpre_of_take httpsPre canonPre v (by decide)
  · show lpre httpPre (canonPre ++ v) = false
    exact lpre_of_take httpPre canonPre v (by decide)

theorem searchPat1_canonical (v : List Char) (h1 : v.length = 11)
    (h2 : v.all isVidChar = true) : searchPat1 (canonical v) = some v := by
  have hsplit : canonical v = preW ++ (altWatch ++ v) := by
    unfold canonical
    rw [canonPre_split, List.append_assoc]
  rw [hsplit, searchPat1_append_skip preW (altWatch ++ v) (by decide)]
  exact searchPat1_watch v h1 h2

theorem process_canonical (v : List Char) (h1 : v.length = 11)
    (h2 : v.all isVidChar = true) : process (canonical v) = canonical v := by
  obtain ⟨hs, hp⟩ := no_host_start_canonical v
  simp only [process, stripShared_canonical v h2, hs, hp, Bool.or_self,
    Bool.false_eq_true, if_false, searchPat1_canonical v h1 h2]

theorem process_idem_list (u : List Char) : process (process u) = process u := by
  by_cases hpre : (lpre httpsPre (stripShared u) || lpre httpPre (stripShared u)) = true
  · have hu : process u = stripShared u := by
      simp only [process, hpre, if_true]
    rw [hu]
    simp only [process, stripShared_stable u, hpre, if_true]
  · have hpre' : (lpre httpsPre (stripShared u) || lpre httpPre (stripShared u)) = false :=
      by simpa using hpre
    cases h1 : searchPat1 (stripShared u) with
    | some v =>
      have hu : process u = canonical v := by
        simp only [process, hpre', Bool.false_eq_true, if_false, h1]
      obtain ⟨hl, ha⟩ := searchPat1_valid _ _ h1
      rw [hu]
      exact process_canonical v hl ha
    | none =>
      cases h2 : searchPat2 (stripShared u) with
      | some v =>
        have hu : process u = canonical v := by
          simp only [process, hpre', Bool.false_eq_true, if_false, h1, h2]
        obtain ⟨hl, ha⟩ := searchPat2_valid _ _ h2
        rw [hu]
        exact process_canonical v hl ha
      | none =>
        have hu : process u = stripShared u := by
          simp only [process, hpre', Bool.false_eq_true, if_false, h1, h2]
        rw [hu]
        simp only [process, stripShared_stable u, hpre', Bool.false_eq_true, if_false,
          h1, h2]

/-- C8 (amended): `process_youtube_url` is idempotent; its output is
either the input with everything from `'?feature=shared'` on removed,
or a canonical `https://www.youtube.com/watch?v=` URL built from the
11-character id found by the pattern search — the URL-context pattern
taking precedence over the bare 11-character-run pattern, so not
necessarily the first 11-character `[a-zA-Z0-9_-]` run of the string —
and re-processing a canonical URL returns it unchanged. -/
theorem c8_process_idempotent :
    (∀ u : String, process_youtube_url (process_youtube_url u) = process_youtube_url u) ∧
    (∀ u : String, process_youtube_url u = String.mk (stripShared u.data) ∨
      ∃ v : List Char,
        (searchPat1 (stripShared u.data) = some v ∨
          (searchPat1 (stripShared u.data) = none ∧
            searchPat2 (stripShared u.data) = some v)) ∧
        v.length = 11 ∧ v.all isVidChar = true ∧
        process_youtube_url u = String.mk (canonical v)) ∧
    (∀ v : List Char, v.length = 11 → v.all isVidChar = true →
      process_youtube_url (String.mk (canonical v)) = String.mk (canonical v)) := by
  refine ⟨?_, ?_, ?_⟩
  · intro u
    show String.mk (process (process u.data)) = String.mk (process u.data)
    rw [process_idem_list]
  · intro u
    by_cases hpre : (lpre httpsPre (stripShared u.data) ||
        lpre httpPre (stripShared u.data)) = true
    · left
      show String.mk (process u.data) = _
      simp only [process, hpre, if_true]
    · have hpre' : (lpre httpsPre (stripShared u.data) ||
          lpre httpPre (stripShared u.data)) = false := by simpa using hpre
      cases h1 : searchPat1 (stripShared u.data) with
      | some v =>
        right
        obtain ⟨hl, ha⟩ := searchPat1_valid _ _ h1
        refine ⟨v, Or.inl rfl, hl, ha, ?_⟩
        show String.mk (process u.data) = _
        simp only [process, hpre', Bool.false_eq_true, if_false, h1]
      | none =>
        cases h2 : searchPat2 (stripShared u.data) with
        | some v =>
          right
          obtain ⟨hl, ha⟩ := searchPat2_valid _ _ h2
          refine ⟨v, Or.inr ⟨rfl, rfl⟩, hl, ha, ?_⟩
          show String.mk (process u.data) = _
          simp only [process, hpre', Bool.false_eq_true, if_false, h1, h2]
        | none =>
          left
          show String.mk (process u.data) = _
          simp only [process, hpre', Bool.false_eq_true, if_false, h1, h2]
  · intro v h1 h2
    show String.mk (process (String.mk (canonical v)).data) = _
    have hdata : (String.mk (canonical v)).data = canonical v := rfl
    rw [hdata, process_canonical v h1 h2]

/-- C8 as stated is false at a concrete input: the first 11-character
`[a-zA-Z0-9_-]` run of the input is `kkkkkkkkkkk`, yet the output is a
canonical URL built from `abcdefghijA` (found by the URL-context
pattern, which the code tries first), and it is not the (stripped)
input either. -/
theorem c8_counterexample :
    process_youtube_url "kkkkkkkkkkk youtu.be/abcdefghijA" =
      "https://www.youtube.com/watch?v=abcdefghijA" ∧
    searchPat2 (stripShared "kkkkkkkkkkk youtu.be/abcdefghijA".data) =
      some "kkkkkkkkkkk".data ∧
    process_youtube_url "kkkkkkkkkkk youtu.be/abcdefghijA" ≠
      "kkkkkkkkkkk youtu.be/abcdefghijA" ∧
    process_youtube_url "kkkkkkkkkkk youtu.be/abcdefghijA" ≠
      "https://www.youtube.com/watch?v=kkkkkkkkkkk" := by
  refine ⟨?_, ?_, ?_, ?_⟩ <;> decide

/-- Witness for `c8_process_idempotent`: a concrete canonical URL is a
fixed point, and processing a shared-suffix short URL is idempotent. -/
theorem c8_process_idempotent_witness :
    process_youtube_url (String.mk (canonical "dQw4w9WgXcQ".data)) =
      String.mk (canonical "dQw4w9WgXcQ".data) ∧
    process_youtube_url
        (process_youtube_url "https://youtu.be/dQw4w9WgXcQ?feature=shared") =
      process_youtube_url "https://youtu.be/dQw4w9WgXcQ?feature=shared" :=
  ⟨c8_process_idempotent.2.2 ("dQw4w9WgXcQ".data) (by decide) (by decide),
    c8_process_idempotent.1 "https://youtu.be/dQw4w9WgXcQ?feature=shared"⟩

end YtApi
